import Mathlib

/-!
Verification of the StudyMate local persistence and derived-metrics layer.

The embedding models calendar time at day granularity: a date is the integer
number of days since the Unix epoch (day 0 = Thursday 1970-01-01), so a
timestamp truncated to midnight is just its day number, and the day-of-week
of day `d` is `(d + 4) % 7` with 0 = Sunday.  Durations and derived hour
quantities are rationals so that the divisions by 60 and by the weekly goal
are exact.
-/

namespace StudyMate

/-! ## Data model -/

/-- a Subject record as stored in the `subjects` collection. -/
structure Subject where
  id : String
  name : String
  description : String
  color : String
  goalHoursPerWeek : ℚ
  deriving DecidableEq, Repr

/-- a StudySession record as stored in the `studyTime` collection; `date` is
the day number of the session's timestamp. -/
structure StudySession where
  id : String
  subject : String
  durationMinutes : ℚ
  date : Int
  deriving DecidableEq, Repr

/-- a Task record as stored in the `tasks` collection; `dueDate` is a day
number. -/
structure Task where
  id : String
  title : String
  description : String
  dueDate : Int
  completed : Bool
  deriving DecidableEq, Repr

/-- the singleton StudyStreak record; `lastStudyDate` is the day number of the
stored date truncated to midnight. -/
structure StudyStreak where
  currentStreak : Int
  bestStreak : Int
  lastStudyDate : Int
  deriving DecidableEq, Repr

/-! ## Streak update rule

Embeds the streak branch of `handleStudySessionComplete` in the Dashboard
page.  Both `today` and the stored `lastStudyDate` are truncated to midnight
before the subtraction, so `Math.floor((today - lastStudy) / oneDay)` is
exactly the difference of the two day numbers. -/

/-- the streak transition performed by `handleStudySessionComplete` once a
session with positive duration completes on day `today`. -/
def updateStreak (streak : StudyStreak) (today : Int) : StudyStreak :=
  let timeDiff : Int := today - streak.lastStudyDate
  if timeDiff ≤ 1 then
    { currentStreak := streak.currentStreak + 1
      bestStreak := max streak.bestStreak (streak.currentStreak + 1)
      lastStudyDate := today }
  else
    { currentStreak := 1
      bestStreak := streak.bestStreak
      lastStudyDate := today }

/-- the streak record reached from `s` after completing one session on each
day of `days`, in order. -/
def runSessions (s : StudyStreak) (days : List Int) : StudyStreak :=
  days.foldl updateStreak s

/-- one step of the streak rule always leaves `currentStreak` at most
`max bestStreak 1`: the increment branch folds the new current value into
`bestStreak`, and the reset branch sets `currentStreak` to 1. -/
theorem updateStreak_inv (s : StudyStreak) (d : Int) :
    (updateStreak s d).currentStreak ≤ max (updateStreak s d).bestStreak 1 := by
  unfold updateStreak
  by_cases h : d - s.lastStudyDate ≤ 1
  · simp only [h, if_pos]
    exact le_max_of_le_left (le_max_right _ _)
  · simp only [h, if_neg, not_false_iff]
    exact le_max_right _ _

/-- C2: the streak transition rule.  With `dayDiff` the difference of the two
midnight day numbers, a transition with `dayDiff ≤ 1` increments
`currentStreak`, folds it into `bestStreak` and stamps today; a transition
with `dayDiff > 1` resets `currentStreak` to 1, keeps `bestStreak` and stamps
today. -/
theorem streak_transition_rule (s : StudyStreak) (today : Int) :
    (today - s.lastStudyDate ≤ 1 →
      updateStreak s today =
        ⟨s.currentStreak + 1, max s.bestStreak (s.currentStreak + 1), today⟩) ∧
    (1 < today - s.lastStudyDate →
      updateStreak s today = ⟨1, s.bestStreak, today⟩) := by
  constructor
  · intro h
    unfold updateStreak
    simp only [h, if_pos]
  · intro h
    unfold updateStreak
    simp only [not_le.mpr h, if_neg, not_false_iff]

/-- witness for C2: from streak `(2, 3, day 0)`, a session on day 1 has
`dayDiff = 1` and yields `(3, 3, day 1)`; from `(2, 3, day 0)`, a session on
day 2 has `dayDiff = 2` and resets to `(1, 3, day 2)`. -/
theorem streak_transition_rule_witness :
    updateStreak ⟨2, 3, 0⟩ 1 = ⟨3, 3, 1⟩ ∧ updateStreak ⟨2, 3, 0⟩ 2 = ⟨1, 3, 2⟩ :=
  ⟨(streak_transition_rule ⟨2, 3, 0⟩ 1).1 (by decide),
   (streak_transition_rule ⟨2, 3, 0⟩ 2).2 (by decide)⟩

/-- C1 counterexample: from the default stored streak `(0, 0, day 0)`, one
session on day 2 takes the reset branch and yields `currentStreak = 1` with
`bestStreak` still 0, so `currentStreak ≤ bestStreak` fails in a reachable
state. -/
theorem streak_current_le_best_cx :
    ¬ (runSessions ⟨0, 0, 0⟩ [2]).currentStreak ≤
        (runSessions ⟨0, 0, 0⟩ [2]).bestStreak := by
  decide

/-- C1 amended: from any stored streak with `currentStreak ≤ max bestStreak 1`
(the default record `(0, 0)` qualifies), every state reachable by the streak
rule keeps `currentStreak ≤ max bestStreak 1`; in particular
`currentStreak ≤ bestStreak` holds in every reachable state whose
`bestStreak` is at least 1. -/
theorem streak_current_le_best (s₀ : StudyStreak) (days : List Int)
    (h₀ : s₀.currentStreak ≤ max s₀.bestStreak 1) :
    (runSessions s₀ days).currentStreak ≤ max (runSessions s₀ days).bestStreak 1 ∧
    (1 ≤ (runSessions s₀ days).bestStreak →
      (runSessions s₀ days).currentStreak ≤ (runSessions s₀ days).bestStreak) := by
  have main : (runSessions s₀ days).currentStreak ≤
      max (runSessions s₀ days).bestStreak 1 := by
    induction days generalizing s₀ with
    | nil => exact h₀
    | cons d rest ih =>
        have hstep := updateStreak_inv s₀ d
        exact ih (updateStreak s₀ d) hstep
  refine ⟨main, fun hb => ?_⟩
  have : max (runSessions s₀ days).bestStreak 1 = (runSessions s₀ days).bestStreak :=
    max_eq_left hb
  omega

/-- witness for C1 amended: from the default streak `(0, 0, day 0)` and
sessions on days 2 and 3, the reachable state satisfies the bound. -/
theorem streak_current_le_best_witness :
    (runSessions ⟨0, 0, 0⟩ [2, 3]).currentStreak ≤
        max (runSessions ⟨0, 0, 0⟩ [2, 3]).bestStreak 1 ∧
    (1 ≤ (runSessions ⟨0, 0, 0⟩ [2, 3]).bestStreak →
      (runSessions ⟨0, 0, 0⟩ [2, 3]).currentStreak ≤
        (runSessions ⟨0, 0, 0⟩ [2, 3]).bestStreak) :=
  streak_current_le_best ⟨0, 0, 0⟩ [2, 3] (by decide)

/-! ## Derived metrics engine -/

/-- day-of-week of day number `d`, with 0 = Sunday (day 0 of the epoch is a
Thursday, hence the offset 4). -/
def dayOfWeek (d : Int) : Int :=
  (d + 4) % 7

/-- the Sunday that starts the calendar week containing day `d` (the date-fns
`startOfWeek` default convention). -/
def startOfWeek (d : Int) : Int :=
  d - dayOfWeek d

/-- the Saturday that ends the calendar week containing day `d`; at day
granularity the date-fns `endOfWeek` of `d` is the sixth day after its
`startOfWeek`. -/
def endOfWeek (d : Int) : Int :=
  startOfWeek d + 6

/-- a list fold with a running rational accumulator, as produced by a
JavaScript `reduce((acc, x) => acc + f x, 0)`. -/
theorem foldl_add_eq_sum {α : Type} (f : α → ℚ) (l : List α) (a : ℚ) :
    l.foldl (fun acc x => acc + f x) a = a + (l.map f).sum := by
  induction l generalizing a with
  | nil => simp
  | cons x xs ih =>
      simp only [List.foldl_cons, List.map_cons, List.sum_cons, ih (a + f x)]
      ring

/-- `getWeeklyProgress` from the Subjects page: total minutes of the sessions
of `subjectName` dated inside the current week, divided by 60. -/
def getWeeklyProgress (studySessions : List StudySession) (subjectName : String)
    (now : Int) : ℚ :=
  let weekStart := startOfWeek now
  let weekEnd := endOfWeek now
  let weeklyMinutes :=
    (studySessions.filter (fun session =>
        session.subject == subjectName &&
        weekStart ≤ session.date && session.date ≤ weekEnd)).foldl
      (fun acc session => acc + session.durationMinutes) 0
  weeklyMinutes / 60

/-- C3: weekly progress for a subject is the sum of `durationMinutes` over
exactly the sessions whose subject name matches and whose date lies in the
inclusive Sunday-to-Saturday week of `now`, divided by 60. -/
theorem weekly_progress_spec (studySessions : List StudySession)
    (subjectName : String) (now : Int) :
    getWeeklyProgress studySessions subjectName now =
      ((studySessions.filter (fun session =>
          session.subject == subjectName &&
          startOfWeek now ≤ session.date &&
          session.date ≤ startOfWeek now + 6)).map
        (fun session => session.durationMinutes)).sum / 60 := by
  unfold getWeeklyProgress endOfWeek
  dsimp only
  rw [foldl_add_eq_sum]
  ring

/-! ## Goal progress percentage

The Subjects page computes `progress = (weeklyHours / goalHoursPerWeek) * 100`
with no guard on `goalHoursPerWeek = 0`.  JavaScript number division by zero
produces Infinity or NaN, never a finite number; the embedding models a
division whose result is finite as `some` of the exact quotient and a division
by zero as `none`. -/

/-- JavaScript number division at rational precision: `none` models the
non-finite result of dividing by zero. -/
def jsDiv (a b : ℚ) : Option ℚ :=
  if b = 0 then none else some (a / b)

/-- the unguarded goal-progress computation of the Subjects page:
`(weeklyHours / goalHoursPerWeek) * 100`. -/
def goalProgress (weeklyHours goalHoursPerWeek : ℚ) : Option ℚ :=
  (jsDiv weeklyHours goalHoursPerWeek).map (fun q => q * 100)

/-- C4 counterexample: with one accumulated hour and a weekly goal of 0 hours
the computed percentage is not the claimed 0 — the division is unguarded and
the result is non-finite. -/
theorem goal_progress_guard_cx : goalProgress 1 0 ≠ some 0 := by
  simp [goalProgress, jsDiv]

/-- C4 amended: for a positive weekly goal `G` the percentage is exactly
`(P / G) * 100`; for `G = 0` the division is unguarded and the computed value
is non-finite (modelled `none`), not the 0-by-convention the claim states. -/
theorem goal_progress_spec (P G : ℚ) :
    (0 < G → goalProgress P G = some (P / G * 100)) ∧
    (G = 0 → goalProgress P G = none) := by
  constructor
  · intro h
    simp [goalProgress, jsDiv, ne_of_gt h]
  · intro h
    simp [goalProgress, jsDiv, h]

/-- witness for C4 amended: three weekly hours against a goal of 2 give 150
percent, and a goal of 0 gives a non-finite value. -/
theorem goal_progress_spec_witness :
    goalProgress 3 2 = some 150 ∧ goalProgress 3 0 = none := by
  constructor
  · have h := (goal_progress_spec 3 2).1 (by norm_num)
    rw [h]
    norm_num
  · exact (goal_progress_spec 3 0).2 rfl

/-! ## Trend

The SubjectStats component sorts the subject's sessions descending by
timestamp (a stable sort, as JavaScript `Array.sort` is) and subtracts the
second-most-recent duration from the most recent one. -/

/-- stable insertion of a session into a list already sorted descending by
date: the new session goes before the first strictly older one. -/
def insertByDateDesc (s : StudySession) : List StudySession → List StudySession
  | [] => [s]
  | t :: ts => if t.date ≤ s.date then s :: t :: ts else t :: insertByDateDesc s ts

/-- stable sort of sessions descending by date, as the comparator
`(a, b) => b.date - a.date` produces. -/
def sortByDateDesc : List StudySession → List StudySession
  | [] => []
  | s :: ss => insertByDateDesc s (sortByDateDesc ss)

/-- the trend computation of SubjectStats: the difference in minutes between
the two most-recent sessions of the subject, 0 when fewer than two exist. -/
def trend (sessions : List StudySession) (subjectName : String) : ℚ :=
  let previousSessions :=
    sortByDateDesc (sessions.filter (fun s => s.subject == subjectName))
  match previousSessions with
  | s₀ :: s₁ :: _ => s₀.durationMinutes - s₁.durationMinutes
  | _ => 0

/-- C5 counterexample: a subject with sessions of 60 minutes on day 0 and 90
minutes on day 1 has trend `90 - 60 = 30`, not the claimed `60 - 90 = -30`:
sorting descending puts the 90-minute session first. -/
theorem trend_example_cx :
    trend [⟨"s1", "Math", 60, 0⟩, ⟨"s2", "Math", 90, 1⟩] "Math" = 30 ∧
    (30 : ℚ) ≠ -30 := by
  constructor
  · unfold trend
    norm_num [List.filter, sortByDateDesc, insertByDateDesc]
  · norm_num

/-- C5 amended: for a subject with exactly two sessions of durations `d₁` at
time `t₁` and `d₂` at time `t₂ > t₁`, the trend is `d₂ - d₁` (most recent
minus prior); with fewer than two sessions of the subject the trend is 0. -/
theorem trend_spec (name i₁ i₂ : String) (d₁ d₂ : ℚ) (t₁ t₂ : Int)
    (hlt : t₁ < t₂) :
    trend [⟨i₁, name, d₁, t₁⟩, ⟨i₂, name, d₂, t₂⟩] name = d₂ - d₁ ∧
    (∀ sessions : List StudySession,
      (sessions.filter (fun s => s.subject == name)).length < 2 →
      trend sessions name = 0) := by
  constructor
  · have hnle : ¬ t₂ ≤ t₁ := not_le.mpr hlt
    simp [trend, sortByDateDesc, insertByDateDesc, hnle]
  · intro sessions hlen
    unfold trend
    dsimp only
    have hsorted : ∀ l : List StudySession, (sortByDateDesc l).length = l.length := by
      intro l
      induction l with
      | nil => rfl
      | cons x xs ih =>
          have hins : ∀ (s : StudySession) (m : List StudySession),
              (insertByDateDesc s m).length = m.length + 1 := by
            intro s m
            induction m with
            | nil => rfl
            | cons y ys ihm =>
                unfold insertByDateDesc
                by_cases hy : y.date ≤ s.date
                · simp [hy]
                · simp [hy, ihm]
          simp [sortByDateDesc, hins, ih]
    rcases hl : sortByDateDesc (sessions.filter (fun s => s.subject == name)) with
      _ | ⟨a, _ | ⟨b, rest⟩⟩
    · rfl
    · rfl
    · exfalso
      have := hsorted (sessions.filter (fun s => s.subject == name))
      rw [hl] at this
      simp at this
      omega

/-- witness for C5 amended: sessions of 60 minutes on day 0 and 90 minutes on
day 1 give trend 30, and a single-session list gives trend 0. -/
theorem trend_spec_witness :
    trend [⟨"s1", "Math", 60, 0⟩, ⟨"s2", "Math", 90, 1⟩] "Math" = 90 - 60 ∧
    trend [⟨"s1", "Math", 60, 0⟩] "Math" = 0 :=
  ⟨(trend_spec "Math" "s1" "s2" 60 90 0 1 (by decide)).1,
   (trend_spec "Math" "s1" "s2" 60 90 0 1 (by decide)).2
     [⟨"s1", "Math", 60, 0⟩] (by decide)⟩

/-! ## Last-7-days histogram

The Analytics page builds `Array.from(length 7, i => bucket of subDays(now, i))`
and reverses it, bucketing total minutes by exact calendar-date match.  The
display label of a day is its formatted date; the embedding keeps the day
number itself, which determines the label. -/

/-- total minutes studied on the exact calendar day `d`. -/
def dayMinutes (studyTime : List StudySession) (d : Int) : ℚ :=
  (studyTime.filter (fun session => session.date == d)).foldl
    (fun acc session => acc + session.durationMinutes) 0

/-- the `last7Days` computation of the Analytics page: one `(day, minutes)`
entry per day `now - i` for `i = 0 .. 6`, reversed to run oldest to newest. -/
def last7Days (studyTime : List StudySession) (now : Int) : List (Int × ℚ) :=
  ((List.range 7).map (fun i =>
    (now - i, dayMinutes studyTime (now - i)))).reverse

/-- the concrete sessions of the C7 example: two sessions of 30 and 20
minutes on day 3 and nothing else. -/
def histogramExample : List StudySession :=
  [⟨"s1", "Math", 30, 3⟩, ⟨"s2", "Math", 20, 3⟩]

/-- C7: the 7-day histogram is exactly the sequence, ordered oldest to
newest, of the 7 days `now - 6, ..., now`, each paired with the sum of
`durationMinutes` over the sessions whose date matches that day exactly
(0 when none match); in particular two sessions of 30 and 20 minutes on
day 3 with `now = 6` give that day's bucket 50 and all other buckets 0. -/
theorem last7Days_spec :
    (∀ (studyTime : List StudySession) (now : Int),
      last7Days studyTime now =
        (List.range 7).map (fun j : ℕ =>
          (now - ((6 - j : ℕ) : Int),
            ((studyTime.filter
                (fun session => session.date == now - ((6 - j : ℕ) : Int))).map
              (fun session => session.durationMinutes)).sum))) ∧
    last7Days histogramExample 6 =
      [(0, 0), (1, 0), (2, 0), (3, 50), (4, 0), (5, 0), (6, 0)] := by
  have general : ∀ (studyTime : List StudySession) (now : Int),
      last7Days studyTime now =
        (List.range 7).map (fun j : ℕ =>
          (now - ((6 - j : ℕ) : Int),
            ((studyTime.filter
                (fun session => session.date == now - ((6 - j : ℕ) : Int))).map
              (fun session => session.durationMinutes)).sum)) := by
    intro studyTime now
    have hrange : List.range 7 = [0, 1, 2, 3, 4, 5, 6] := rfl
    unfold last7Days dayMinutes
    rw [hrange]
    simp only [List.map_cons, List.map_nil, List.reverse_cons, List.reverse_nil,
      List.nil_append, List.cons_append, foldl_add_eq_sum, zero_add]
    norm_num
  refine ⟨general, ?_⟩
  rw [general histogramExample 6]
  have hrange : List.range 7 = [0, 1, 2, 3, 4, 5, 6] := rfl
  rw [hrange]
  simp only [List.map_cons, List.map_nil, histogramExample, List.filter_cons,
    List.filter_nil, beq_iff_eq]
  norm_num

/-! ## Persisted-collection reads

A stored value is modelled as `Option (Except Unit α)`: `none` is an absent
key, `some (Except.ok v)` a present value that deserializes to `v`, and
`some (Except.error ())` a present value on which `JSON.parse` throws.  A
read that can propagate the parse exception returns `Except Unit α`, with
`Except.error` standing for the thrown exception reaching the caller. -/

/-- the Profile page's `storage.get`: the whole read sits in a try/catch that
returns the caller's default, so absence and parse failure both yield the
default and nothing escapes. -/
def storageGet {α : Type} (item : Option (Except Unit α)) (defaultValue : α) :
    Except Unit α :=
  match item with
  | none => Except.ok defaultValue
  | some (Except.ok v) => Except.ok v
  | some (Except.error _) => Except.ok defaultValue

/-- the Tasks page's `useState` initializer:
`saved ? JSON.parse(saved) : []` with no try/catch, so a parse exception
propagates. -/
def tasksInitialState (saved : Option (Except Unit (List Task))) :
    Except Unit (List Task) :=
  match saved with
  | none => Except.ok []
  | some (Except.ok v) => Except.ok v
  | some (Except.error e) => Except.error e

/-- the Subjects page's `useState` initializer for the `subjects` key, same
unguarded shape as the Tasks one. -/
def subjectsInitialState (saved : Option (Except Unit (List Subject))) :
    Except Unit (List Subject) :=
  match saved with
  | none => Except.ok []
  | some (Except.ok v) => Except.ok v
  | some (Except.error e) => Except.error e

/-- C6 counterexample: reading the `tasks` key when the stored bytes fail to
deserialize propagates the exception to the caller instead of returning the
default empty list, so not every persisted-collection read is guarded. -/
theorem reads_never_throw_cx :
    tasksInitialState (some (Except.error ())) = Except.error () ∧
    tasksInitialState (some (Except.error ())) ≠ Except.ok [] := by
  constructor
  · rfl
  · intro h
    exact absurd h (by simp [tasksInitialState])

/-- C6 amended: the `storage.get` helper never throws and returns the
caller's default on absence and on deserialization failure; but the direct
`localStorage` reads in the Tasks and Subjects pages return their default
only on absence and propagate the deserialization exception when the stored
value fails to parse. -/
theorem reads_never_throw :
    (∀ {α : Type} (d : α), storageGet none d = Except.ok d) ∧
    (∀ {α : Type} (d : α) (e : Unit),
      storageGet (some (Except.error e)) d = Except.ok d) ∧
    (∀ {α : Type} (d v : α), storageGet (some (Except.ok v)) d = Except.ok v) ∧
    tasksInitialState none = Except.ok [] ∧
    (∀ e : Unit, tasksInitialState (some (Except.error e)) = Except.error e) ∧
    subjectsInitialState none = Except.ok [] ∧
    (∀ e : Unit, subjectsInitialState (some (Except.error e)) = Except.error e) :=
  ⟨fun _ => rfl, fun _ _ => rfl, fun _ _ => rfl, rfl, fun _ => rfl, rfl,
   fun _ => rfl⟩

/-! ## Session completion handler

The Dashboard's `handleStudySessionComplete` guards on `minutes <= 0` and
returns before touching either the sessions collection or the streak
record; otherwise it appends the new session and applies the streak
transition. -/

/-- the Dashboard state the handler touches: the `studyTime` collection and
the `streak` record. -/
structure DashboardState where
  studyTime : List StudySession
  streak : StudyStreak
  deriving DecidableEq, Repr

/-- the Dashboard's `handleStudySessionComplete` on day `today`, with
`newId` the freshly generated session id: durations at most 0 are rejected
up front; otherwise the session (attributed to the selected subject, or
"General" when none is selected) is appended and the streak rule runs. -/
def handleStudySessionComplete (minutes : ℚ) (selectedSubject : String)
    (newId : String) (today : Int) (st : DashboardState) : DashboardState :=
  if minutes ≤ 0 then st
  else
    { studyTime := st.studyTime ++
        [⟨newId, if selectedSubject = "" then "General" else selectedSubject,
          minutes, today⟩]
      streak := updateStreak st.streak today }

/-- C8: a completion call with duration at most 0 is rejected before any
store interaction — the sessions collection and the streak record are both
exactly unchanged. -/
theorem nonpositive_duration_rejected (minutes : ℚ) (selectedSubject newId : String)
    (today : Int) (st : DashboardState) (h : minutes ≤ 0) :
    (handleStudySessionComplete minutes selectedSubject newId today st).studyTime =
        st.studyTime ∧
    (handleStudySessionComplete minutes selectedSubject newId today st).streak =
        st.streak := by
  unfold handleStudySessionComplete
  simp [h]

/-- witness for C8: a 0-minute completion leaves a concrete one-session
state with streak `(1, 1, day 0)` untouched. -/
theorem nonpositive_duration_rejected_witness :
    (handleStudySessionComplete 0 "Math" "s2" 1
        ⟨[⟨"s1", "Math", 30, 0⟩], ⟨1, 1, 0⟩⟩).studyTime =
      [⟨"s1", "Math", 30, 0⟩] ∧
    (handleStudySessionComplete 0 "Math" "s2" 1
        ⟨[⟨"s1", "Math", 30, 0⟩], ⟨1, 1, 0⟩⟩).streak = ⟨1, 1, 0⟩ :=
  nonpositive_duration_rejected 0 "Math" "s2" 1
    ⟨[⟨"s1", "Math", 30, 0⟩], ⟨1, 1, 0⟩⟩ (by norm_num)

/-! ## Subject deletion

The Subjects page's `handleDeleteSubject` replaces the subjects collection
with `subjects.filter(subject => subject.id !== id)` and never touches the
`studyTime` collection. -/

/-- the state the Subjects page owns: the `subjects` collection together
with the `studyTime` collection it reads. -/
structure SubjectsPageState where
  subjects : List Subject
  studySessions : List StudySession
  deriving DecidableEq, Repr

/-- the Subjects page's `handleDeleteSubject`: keep every subject whose id
differs from the deleted one; the sessions collection is not written. -/
def handleDeleteSubject (st : SubjectsPageState) (id : String) : SubjectsPageState :=
  { st with subjects := st.subjects.filter (fun subject => subject.id != id) }

/-- C9: when the subjects collection holds exactly one subject with the
given id, deleting it removes that subject alone — the remaining subjects
keep their order — and the study sessions collection is entirely unchanged,
so every session referencing the deleted subject keeps its subject-name
field. -/
theorem delete_subject_frame (st : SubjectsPageState) (id : String)
    (pre post : List Subject) (target : Subject)
    (hsplit : st.subjects = pre ++ target :: post)
    (htarget : target.id = id)
    (hpre : ∀ s ∈ pre, s.id ≠ id) (hpost : ∀ s ∈ post, s.id ≠ id) :
    (handleDeleteSubject st id).subjects = pre ++ post ∧
    (handleDeleteSubject st id).studySessions = st.studySessions := by
  refine ⟨?_, rfl⟩
  unfold handleDeleteSubject
  simp only [hsplit, List.filter_append, List.filter_cons]
  have hpre' : pre.filter (fun subject => subject.id != id) = pre :=
    List.filter_eq_self.mpr (fun s hs => by simp [bne_iff_ne, hpre s hs])
  have hpost' : post.filter (fun subject => subject.id != id) = post :=
    List.filter_eq_self.mpr (fun s hs => by simp [bne_iff_ne, hpost s hs])
  simp [htarget, hpre', hpost']

/-- witness for C9: deleting subject id "b" from the collection
`[a, b, c]` with a session referencing "B" yields `[a, c]` and leaves the
session list untouched. -/
theorem delete_subject_frame_witness :
    (handleDeleteSubject
        ⟨[⟨"a", "A", "", "red", 5⟩, ⟨"b", "B", "", "blue", 5⟩,
          ⟨"c", "C", "", "green", 5⟩], [⟨"s1", "B", 30, 0⟩]⟩ "b").subjects =
      [⟨"a", "A", "", "red", 5⟩] ++ [⟨"c", "C", "", "green", 5⟩] ∧
    (handleDeleteSubject
        ⟨[⟨"a", "A", "", "red", 5⟩, ⟨"b", "B", "", "blue", 5⟩,
          ⟨"c", "C", "", "green", 5⟩], [⟨"s1", "B", 30, 0⟩]⟩ "b").studySessions =
      [⟨"s1", "B", 30, 0⟩] :=
  delete_subject_frame _ "b" [⟨"a", "A", "", "red", 5⟩]
    [⟨"c", "C", "", "green", 5⟩] ⟨"b", "B", "", "blue", 5⟩ rfl rfl
    (by intro s hs; simp at hs; subst hs; decide)
    (by intro s hs; simp at hs; subst hs; decide)

/-! ## Task completion toggle

The Tasks page's `handleTaskComplete` maps over the list, flipping the
`completed` flag of the task whose id matches and leaving every other task
alone. -/

/-- the Tasks page's `handleTaskComplete`. -/
def handleTaskComplete (tasks : List Task) (taskId : String) : List Task :=
  tasks.map (fun task =>
    if task.id == taskId then { task with completed := !task.completed } else task)

/-- C10: the completion toggle flips exactly the `completed` flag of the
task with the given id — position by position, a task with a different id
is returned unchanged and a task with the matching id keeps every other
field — the list length and order are preserved, and toggling twice
restores the original list. -/
theorem task_toggle_spec (tasks : List Task) (taskId : String) :
    handleTaskComplete (handleTaskComplete tasks taskId) taskId = tasks ∧
    (handleTaskComplete tasks taskId).length = tasks.length ∧
    ∀ i : ℕ, (handleTaskComplete tasks taskId).get? i =
      (tasks.get? i).map (fun task =>
        if task.id == taskId then
          ⟨task.id, task.title, task.description, task.dueDate, !task.completed⟩
        else task) := by
  refine ⟨?_, ?_, ?_⟩
  · unfold handleTaskComplete
    rw [List.map_map]
    have hid : ∀ task : Task,
        ((fun task =>
            if task.id == taskId then
              { task with completed := !task.completed } else task) ∘
          (fun task =>
            if task.id == taskId then
              { task with completed := !task.completed } else task)) task = task := by
      intro task
      by_cases h : task.id == taskId
      · cases task
        simp only [Function.comp_apply, h, if_pos]
        simp [h, Bool.not_not]
      · have h' : ¬ task.id = taskId := by simpa using h
        simp [Function.comp_apply, h']
    calc tasks.map _ = tasks.map id := List.map_congr_left (fun t _ => hid t)
      _ = tasks := List.map_id tasks
  · unfold handleTaskComplete
    exact List.length_map tasks _
  · intro i
    unfold handleTaskComplete
    rw [List.get?_map]

end StudyMate
